import Mathlib

/-!
Verification of the MCP client (two variants concatenated in
src/mcp-client/build/index.js): an OpenAI-backed variant and a
Gemini-backed variant.  We give a shallow embedding of the request
correlator, the newline framing of the stdio transport, the line handler,
the schema adapter, the per-query orchestrators, the chat loops and the
main entry points, and prove the repository claims about them.
-/

/- =====================================================================
   Request Correlator (Gemini variant, index.js lines 197-254)

   Source fields:  `private id = 0`
                   `private pending = new Map<number, resolver>()`
   `request` does `const id = ++this.id`, then inside the Promise body
   first `this.pending.set(id, resolve)` and then
   `this.child.stdin.write(JSON.stringify(payload) + "\n")`.
   ===================================================================== -/

/-- State of the correlator: the last assigned id and the set of pending
request ids (the keys of the `pending` map; the resolver closures are
modelled by recording which ids get resolved). -/
structure CorrState where
  id : Nat
  pending : List Nat
deriving Repr, DecidableEq

/-- Fresh correlator state: `id = 0`, empty pending map. -/
def initCorr : CorrState := ⟨0, []⟩

/-- The two primitive effects performed inside the Promise executor of
`request`: registering the pending resolver and writing the payload. -/
inductive WireAct where
  | setPending (rid : Nat)
  | write (rid : Nat)
deriving Repr, DecidableEq

/-- `request` (index.js 242-255): allocate `id = ++this.id`, register the
pending entry, then write the request.  Returns the new state, the
assigned id, and the ordered list of effects performed. -/
def request (st : CorrState) : CorrState × Nat × List WireAct :=
  let rid := st.id + 1
  (⟨rid, rid :: st.pending⟩, rid, [WireAct.setPending rid, WireAct.write rid])

/-- Handling one decoded response in `onData` (index.js 234-238):
`const resolver = this.pending.get(msg.id); if (resolver) { resolver(msg);
this.pending.delete(msg.id) }`.  Returns the new state and the list of
ids whose waiting caller was resolved by this message (empty or a
singleton). -/
def handleMsg (st : CorrState) (rid : Nat) : CorrState × List Nat :=
  if rid ∈ st.pending then (⟨st.id, st.pending.erase rid⟩, [rid]) else (st, [])

/-- An observable correlator event: a `request` call being issued, or a
response with a given id arriving on stdout. -/
inductive CEvent where
  | call
  | respond (rid : Nat)
deriving Repr, DecidableEq

/-- One step of the correlator: `(new state, resolved ids, assigned ids)`. -/
def corrStep (st : CorrState) : CEvent → CorrState × List Nat × List Nat
  | CEvent.call => let r := request st; (r.1, [], [r.2.1])
  | CEvent.respond rid => let r := handleMsg st rid; (r.1, r.2, [])

/-- Run the correlator over a sequence of events, collecting the resolved
ids and the assigned ids in order. -/
def corrRun (st : CorrState) : List CEvent → CorrState × List Nat × List Nat
  | [] => (st, [], [])
  | e :: es =>
    let r1 := corrStep st e
    let r2 := corrRun r1.1 es
    (r2.1, r1.2.1 ++ r2.2.1, r1.2.2 ++ r2.2.2)

/-- Number of `call` events in a trace. -/
def countCalls (evs : List CEvent) : Nat :=
  (evs.filter (fun e => match e with | CEvent.call => true | _ => false)).length

/-- Correlator invariant: the pending map has no duplicate keys, and
every pending id was assigned from the counter (is at most `id`). -/
def CorrInv (st : CorrState) : Prop :=
  st.pending.Nodup ∧ ∀ p ∈ st.pending, p ≤ st.id

/- =====================================================================
   Framed transport (Gemini variant, `onData`, index.js lines 226-240)

   `this.buffer += chunk`
   `const lines = this.buffer.split("\n")`
   `this.buffer = lines.pop() ?? ""`
   and then each complete line is processed.
   ===================================================================== -/

/-- One character of the newline split: a newline closes the current
segment; any other character is prepended to the first completed segment
if one exists, otherwise to the trailing segment. -/
def scanStep (c : Char) (r : List (List Char) × List Char) :
    List (List Char) × List Char :=
  if c = '\n' then ([] :: r.1, r.2)
  else
    match r with
    | ([], buf) => ([], c :: buf)
    | (l :: ls, buf) => ((c :: l) :: ls, buf)

/-- Split a character stream at newline characters: returns the list of
completed lines (all segments of `split` except the last) and the
trailing segment that `lines.pop()` puts back into the buffer. -/
def scanLines : List Char → List (List Char) × List Char
  | [] => ([], [])
  | c :: cs => scanStep c (scanLines cs)

/-- `onData` framing step: append the chunk to the buffer, split on
newlines, keep the last segment as the new buffer, and emit the completed
lines in order.  Returns `(new buffer, completed lines)`. -/
def feedChunk (buf chunk : List Char) : List Char × List (List Char) :=
  let r := scanLines (buf ++ chunk)
  (r.2, r.1)

/-- Feed a sequence of chunks to the transport one after the other,
collecting all completed lines in order. -/
def feedChunks : List Char → List (List Char) → List Char × List (List Char)
  | buf, [] => (buf, [])
  | buf, c :: cs =>
    let r1 := feedChunk buf c
    let r2 := feedChunks r1.1 cs
    (r2.1, r1.2 ++ r2.2)

/-- The blank-line test `!line.trim()` of index.js line 232: a line is
skipped exactly when it consists of whitespace only. -/
def isBlankLine (l : List Char) : Bool := l.all (fun c => c.isWhitespace)

/-- The lines of a framing result that are actually handed to
`JSON.parse` (index.js 231-233): the non-blank completed lines, in
arrival order. -/
def emitLines (ls : List (List Char)) : List (List Char) :=
  ls.filter (fun l => !(isBlankLine l))

/- =====================================================================
   Line handler of `onData` (index.js lines 231-239)

   for (const line of lines) {
     if (!line.trim()) continue
     const msg = JSON.parse(line) as MCPResponse
     const resolver = this.pending.get(msg.id)
     if (resolver) { resolver(msg); this.pending.delete(msg.id) }
   }

   `JSON.parse` is not guarded by any try/catch: a malformed line makes
   it throw, the exception escapes the `data` event handler, and the
   remaining lines of the chunk are never processed.  We classify each
   complete line by what `JSON.parse` does with it.
   ===================================================================== -/

/-- A complete line as seen by the handler loop: whitespace-only
(skipped), a line that fails to JSON-decode (makes `JSON.parse` throw),
or a decoded response carrying an id. -/
inductive Line where
  | blank
  | malformed
  | msg (rid : Nat)
deriving Repr, DecidableEq

/-- The handler loop over the completed lines of one chunk.  Returns
`Except.error` when `JSON.parse` throws (the exception escapes the data
handler uncaught, so processing of the remaining lines aborts and the
process crashes); otherwise the new correlator state, the resolved ids,
and the diagnostics logged by the loop (the source logs nothing here, so
this list is always empty). -/
def handleLines : CorrState → List Line → Except String (CorrState × List Nat × List String)
  | st, [] => Except.ok (st, [], [])
  | st, Line.blank :: rest => handleLines st rest
  | _, Line.malformed :: _ => Except.error "SyntaxError"
  | st, Line.msg rid :: rest =>
    let r := handleMsg st rid
    match handleLines r.1 rest with
    | Except.ok (st2, rs, logs) => Except.ok (st2, r.2 ++ rs, logs)
    | Except.error e => Except.error e

/- =====================================================================
   Tool descriptors and the Schema Adapter
   (OpenAI variant: connectToServer, index.js lines 50-57;
    Gemini variant: toGeminiTool, index.js lines 276-318)
   ===================================================================== -/

/-- The JSON-Schema-like shape of a tool input schema (the `inputSchema`
field of a tool descriptor).  Both source variants treat this value as
opaque: the OpenAI variant forwards it verbatim and the Gemini variant
ignores it entirely, so only its identity matters to the code. -/
inductive SchemaNode where
  | obj (properties : List (String × SchemaNode)) (required : List String)
  | str
  | num
  | arr (items : SchemaNode)
  | enumOf (values : List String)
deriving Repr

/-- A tool descriptor as returned by `tools/list`. -/
structure MCPTool where
  name : String
  description : Option String
  inputSchema : Option SchemaNode
deriving Repr

/-- The Gemini `SchemaType` enumeration (only the constructors the source
mentions). -/
inductive GSchemaType where
  | OBJECT
  | STRING
deriving Repr, DecidableEq

/-- A Gemini parameter schema as constructed by the source: a type tag, a
property list and a required list. -/
inductive GSchema where
  | node (ty : GSchemaType) (properties : List (String × GSchema)) (required : List String)
deriving Repr

/-- The `required` list of a Gemini schema. -/
def GSchema.requiredOf : GSchema → List String
  | GSchema.node _ _ r => r

/-- The property list of a Gemini schema. -/
def GSchema.propsOf : GSchema → List (String × GSchema)
  | GSchema.node _ p _ => p

/-- A Gemini function declaration. -/
structure FunctionDecl where
  name : String
  description : String
  parameters : GSchema
deriving Repr

/-- `toGeminiTool` (index.js 276-318): a switch on `tool.name` with
hardcoded declarations for `get_forecast` and `get_alerts`, and a default
branch producing an empty object schema.  The input schema of the
descriptor is never consulted. -/
def toGeminiTool (tool : MCPTool) : FunctionDecl :=
  if tool.name = "get_forecast" then
    { name := "get_forecast"
      description := "Get weather forecast for a city"
      parameters := GSchema.node GSchemaType.OBJECT
        [("city", GSchema.node GSchemaType.STRING [] [])] ["city"] }
  else if tool.name = "get_alerts" then
    { name := "get_alerts"
      description := "Get weather alerts for a region"
      parameters := GSchema.node GSchemaType.OBJECT
        [("region", GSchema.node GSchemaType.STRING [] [])] ["region"] }
  else
    { name := tool.name
      description := tool.description.getD ""
      parameters := GSchema.node GSchemaType.OBJECT [] [] }

/-- An OpenAI tool declaration as built in `connectToServer`
(index.js 50-57): `(type: "function", function: (name, description,
parameters: tool.inputSchema))`. -/
structure OpenAIToolDecl where
  ty : String
  name : String
  description : Option String
  parameters : Option SchemaNode
deriving Repr

/-- The OpenAI variant of the adapter: the input schema is passed through
verbatim as `parameters`. -/
def toOpenAITool (tool : MCPTool) : OpenAIToolDecl :=
  { ty := "function"
    name := tool.name
    description := tool.description
    parameters := tool.inputSchema }

/- =====================================================================
   Conversation orchestrator, OpenAI variant
   (processQuery, index.js lines 65-108)
   ===================================================================== -/

/-- A tool call in an OpenAI model message: its kind tag, its
`tool_call_id`, and its function name and raw JSON argument string. -/
structure ToolCall where
  ty : String
  callId : String
  name : String
  args : String
deriving Repr, DecidableEq

/-- An OpenAI chat completion message, restricted to the fields the
source reads: `content` and `tool_calls`.  Absent fields are `none`
(in the source an absent `tool_calls` is `undefined`, which is falsy,
while a present array — even an empty one — is truthy). -/
structure ModelMsg where
  content : Option String
  tool_calls : Option (List ToolCall)
deriving Repr, DecidableEq

/-- A message of the conversation history the orchestrator builds. -/
structure ChatMsg where
  role : String
  content : String
  tool_call_id : Option String
deriving Repr, DecidableEq

/-- JS truthiness of `message.content` (index.js 80, 103): pushed only
when present and non-empty. -/
def pushContent (c : Option String) : List String :=
  match c with
  | some s => if s = "" then [] else [s]
  | none => []

/-- The result of one orchestrated OpenAI query: the returned text, the
dispatched `tools/call` invocations `(name, raw argument string)` in
dispatch order, and the message list passed to the follow-up completion
(`none` when no follow-up call was made). -/
structure QueryResult where
  text : String
  dispatched : List (String × String)
  followUpInput : Option (List ChatMsg)
deriving Repr, DecidableEq

/-- The body of the `for (const toolCall of message.tool_calls)` loop
(index.js 84-98): skip non-function calls, dispatch
`mcp.callTool(name, args)`, and append a `role: "tool"` message carrying
the result and the originating `tool_call_id`. -/
def dispatchLoop (callTool : String → String → String) :
    List ChatMsg × List (String × String) → List ToolCall → List ChatMsg × List (String × String)
  | acc, [] => acc
  | (msgs, disp), tc :: rest =>
    if tc.ty = "function" then
      let result := callTool tc.name tc.args
      dispatchLoop callTool
        (msgs ++ [⟨"tool", result, some tc.callId⟩], disp ++ [(tc.name, tc.args)]) rest
    else
      dispatchLoop callTool (msgs, disp) rest

/-- `processQuery` of the OpenAI variant (index.js 65-108): one model
call; if the reply carries `tool_calls`, dispatch each function call in
order, then make exactly one follow-up model call on the extended
history; the final text is the newline join of the collected contents.
There is no loop back: tool calls in the follow-up reply are never
dispatched. -/
def processQueryOpenAI (generate : List ChatMsg → ModelMsg)
    (followUpGen : List ChatMsg → ModelMsg)
    (callTool : String → String → String) (query : String) : QueryResult :=
  let messages : List ChatMsg := [⟨"user", query, none⟩]
  let message := generate messages
  let finalText := pushContent message.content
  match message.tool_calls with
  | none => ⟨String.intercalate "\n" finalText, [], none⟩
  | some calls =>
    let r := dispatchLoop callTool (messages, []) calls
    let followUp := followUpGen r.1
    ⟨String.intercalate "\n" (finalText ++ pushContent followUp.content), r.2, some r.1⟩

/-- The dispatches a single model turn gives rise to: one `(name, args)`
pair per function-typed tool call, in the order returned. -/
def dispatchedOf (calls : List ToolCall) : List (String × String) :=
  calls.filterMap (fun tc =>
    if tc.ty = "function" then some (tc.name, tc.args) else none)

/-- The `role: "tool"` messages a turn appends to the history: one per
function-typed tool call, carrying the tool result and the originating
`tool_call_id`. -/
def toolMsgsOf (callTool : String → String → String) (calls : List ToolCall) :
    List ChatMsg :=
  calls.filterMap (fun tc =>
    if tc.ty = "function"
    then some ⟨"tool", callTool tc.name tc.args, some tc.callId⟩ else none)

/- =====================================================================
   Conversation orchestrator, Gemini variant
   (processQuery, index.js lines 322-361)
   ===================================================================== -/

/-- A Gemini function call: name and arguments. -/
structure FCall where
  name : String
  args : List (String × String)
deriving Repr, DecidableEq

/-- A content part of a Gemini candidate; the source only looks at
`functionCall`. -/
structure GPart where
  functionCall : Option FCall
deriving Repr, DecidableEq

/-- A Gemini generation outcome as the source consumes it: the candidate
parts and the value of `response.text()`. -/
structure GenOutcome where
  parts : List GPart
  text : String
deriving Repr, DecidableEq

/-- `processQuery` of the Gemini variant (index.js 322-361):
`parts.find(p => p.functionCall)` picks the FIRST function call only; if
none, the model text is printed; otherwise that single call is dispatched
via `request("tools/call", ...)` and one follow-up generation is made with
the function response attached.  Returns the dispatched calls (at most
one) and the printed text. -/
def processQueryGemini (generate : String → GenOutcome)
    (followUpGen : String → String → String → GenOutcome)
    (callTool : String → List (String × String) → String)
    (query : String) : List (String × List (String × String)) × String :=
  let r := generate query
  match (r.parts.find? (fun p => p.functionCall.isSome)).bind (fun p => p.functionCall) with
  | none => ([], r.text)
  | some call =>
    let toolResult := callTool call.name call.args
    let followUp := followUpGen query call.name toolResult
    ([(call.name, call.args)], followUp.text)

/- =====================================================================
   Chat loops and entry points
   (OpenAI: chatLoop 109-128, main 136-155;
    Gemini: chatLoop 365-380, main 387-397)
   ===================================================================== -/

/-- The lowercase conversion `toLowerCase()` used by both chat loops,
modelled characterwise (ASCII case mapping). -/
def lowerStr (s : String) : String := ⟨s.data.map Char.toLower⟩

/-- The `trim()` of the Gemini chat loop: strip leading and trailing
whitespace. -/
def trimStr (s : String) : String :=
  ⟨((s.data.dropWhile Char.isWhitespace).reverse.dropWhile Char.isWhitespace).reverse⟩

/-- The OpenAI `chatLoop` (index.js 117-123) over a list of input lines:
stop on a line whose lowercased form is "quit"; otherwise run
`processQuery`, which is awaited with no surrounding try/catch, so a
query failure escapes the loop.  Returns the responses printed before
termination and the escaped error, if any. -/
def chatLoopOpenAI (process : String → Except String String) :
    List String → List String × Option String
  | [] => ([], none)
  | m :: rest =>
    if lowerStr m = "quit" then ([], none)
    else
      match process m with
      | Except.error e => ([], some e)
      | Except.ok r =>
        let t := chatLoopOpenAI process rest
        (r :: t.1, t.2)

/-- The Gemini `chatLoop` (index.js 373-379): stop (with
`process.exit(0)`) on a line whose trimmed lowercased form is "quit";
`await this.processQuery(line)` has no try/catch and `main` has no
handler, so a failing query becomes an unhandled rejection that ends the
process with a nonzero code.  Returns `(exit code, escaped error)`. -/
def chatLoopGemini (process : String → Except String Unit) :
    List String → Nat × Option String
  | [] => (0, none)
  | m :: rest =>
    if lowerStr (trimStr m) = "quit" then (0, none)
    else
      match process m with
      | Except.error e => (1, some e)
      | Except.ok _ => chatLoopGemini process rest

/-- `main` of the OpenAI variant (index.js 136-155) as a function of the
argument vector, the connect outcome, the query processor and the input
lines; result is `(exit code, responses printed)`.  With fewer than 3
argv entries it prints the usage line and returns — falling off the end
of the program, which ends the process with exit code 0.  A chat-loop
error reaches the catch block, which cleans up and calls
`process.exit(1)`. -/
def mainOpenAI (argv : List String) (connect : Except String Unit)
    (process : String → Except String String) (inputs : List String) :
    Nat × List String :=
  if argv.length < 3 then (0, [])
  else
    match connect with
    | Except.error _ => (1, [])
    | Except.ok _ =>
      let r := chatLoopOpenAI process inputs
      match r.2 with
      | some _ => (1, r.1)
      | none => (0, r.1)

/-- `main` of the Gemini variant (index.js 387-397): `process.argv[2]` is
falsy when absent or the empty string; then the usage message goes to
stderr and the process exits with code 1 before any query is processed. -/
def mainGemini (argv : List String) (connect : Except String Unit)
    (process : String → Except String Unit) (inputs : List String) :
    Nat × Option String :=
  match argv.get? 2 with
  | none => (1, none)
  | some p =>
    if p = "" then (1, none)
    else
      match connect with
      | Except.error _ => (1, none)
      | Except.ok _ => chatLoopGemini process inputs

/- =====================================================================
   Lemmas about the correlator
   ===================================================================== -/

theorem countCalls_nil : countCalls [] = 0 := rfl

theorem countCalls_cons_call (es : List CEvent) :
    countCalls (CEvent.call :: es) = countCalls es + 1 := by
  simp [countCalls, List.filter]

theorem countCalls_cons_respond (rid : Nat) (es : List CEvent) :
    countCalls (CEvent.respond rid :: es) = countCalls es := by
  simp [countCalls, List.filter]

theorem handleMsg_counter (st : CorrState) (rid : Nat) :
    (handleMsg st rid).1.id = st.id := by
  unfold handleMsg
  split <;> rfl

/-- The counter advances by exactly the number of calls. -/
theorem corrRun_counter (evs : List CEvent) :
    ∀ st, (corrRun st evs).1.id = st.id + countCalls evs := by
  induction evs with
  | nil => intro st; simp [corrRun, countCalls_nil]
  | cons e es ih =>
    intro st
    cases e with
    | call =>
      simp only [corrRun, corrStep, request]
      rw [ih, countCalls_cons_call]
      dsimp only
      omega
    | respond rid =>
      simp only [corrRun, corrStep]
      rw [ih, countCalls_cons_respond, handleMsg_counter]

/-- The assigned ids of a run are the consecutive integers following the
starting counter: one per call, strictly increasing, never reused. -/
theorem corrRun_assigned (evs : List CEvent) :
    ∀ st, (corrRun st evs).2.2 = List.range' (st.id + 1) (countCalls evs) := by
  induction evs with
  | nil => intro st; simp [corrRun, countCalls_nil]
  | cons e es ih =>
    intro st
    cases e with
    | call =>
      simp only [corrRun, corrStep, request]
      rw [ih, countCalls_cons_call, List.range'_succ]
      rfl
    | respond rid =>
      simp only [corrRun, corrStep]
      rw [ih, countCalls_cons_respond, handleMsg_counter]
      simp

theorem corrInv_init : CorrInv initCorr := by
  constructor
  · exact List.nodup_nil
  · intro p hp
    simp [initCorr] at hp

theorem corrInv_request (st : CorrState) (h : CorrInv st) : CorrInv (request st).1 := by
  obtain ⟨hn, hb⟩ := h
  constructor
  · show ((st.id + 1) :: st.pending).Nodup
    refine List.nodup_cons.mpr ⟨?_, hn⟩
    intro hm
    have := hb _ hm
    omega
  · show ∀ p ∈ (st.id + 1) :: st.pending, p ≤ st.id + 1
    intro p hp
    rcases List.mem_cons.mp hp with h1 | h2
    · omega
    · exact le_trans (hb p h2) (Nat.le_succ _)

theorem corrInv_handleMsg (st : CorrState) (rid : Nat) (h : CorrInv st) :
    CorrInv (handleMsg st rid).1 := by
  obtain ⟨hn, hb⟩ := h
  unfold handleMsg
  split
  · exact ⟨hn.erase rid, fun p hp => hb p (List.mem_of_mem_erase hp)⟩
  · exact ⟨hn, hb⟩

theorem corrInv_corrStep (st : CorrState) (e : CEvent) (h : CorrInv st) :
    CorrInv (corrStep st e).1 := by
  cases e with
  | call => exact corrInv_request st h
  | respond rid => exact corrInv_handleMsg st rid h

theorem corrInv_corrRun (evs : List CEvent) :
    ∀ st, CorrInv st → CorrInv (corrRun st evs).1 := by
  induction evs with
  | nil => intro st h; exact h
  | cons e es ih =>
    intro st h
    exact ih _ (corrInv_corrStep st e h)

/-- An id that is not pending and is already covered by the counter is
never resolved again: once removed it cannot return. -/
theorem resolved_never (evs : List CEvent) :
    ∀ st rid, (∀ p ∈ st.pending, p ≤ st.id) → rid ∉ st.pending → rid ≤ st.id →
      ((corrRun st evs).2.1).count rid = 0 := by
  induction evs with
  | nil => intro st rid _ _ _; simp [corrRun]
  | cons e es ih =>
    intro st rid hb hnp hle
    cases e with
    | call =>
      simp only [corrRun, corrStep, request, List.nil_append]
      apply ih
      · intro p hp
        have hp2 : p ∈ (st.id + 1) :: st.pending := hp
        show p ≤ st.id + 1
        rcases List.mem_cons.mp hp2 with h1 | h2
        · omega
        · exact le_trans (hb p h2) (Nat.le_succ _)
      · show rid ∉ (st.id + 1) :: st.pending
        intro hm
        rcases List.mem_cons.mp hm with h1 | h2
        · omega
        · exact hnp h2
      · show rid ≤ st.id + 1
        omega
    | respond r =>
      simp only [corrRun, corrStep, List.count_append]
      have htail : ((corrRun (handleMsg st r).1 es).2.1).count rid = 0 := by
        apply ih
        · intro p hp
          rw [handleMsg_counter]
          unfold handleMsg at hp
          split at hp
          · exact hb p (List.mem_of_mem_erase hp)
          · exact hb p hp
        · unfold handleMsg
          split
          · intro hm
            exact hnp (List.mem_of_mem_erase hm)
          · exact hnp
        · rw [handleMsg_counter]; exact hle
      have hhead : ((handleMsg st r).2).count rid = 0 := by
        unfold handleMsg
        split
        · rename_i hmem
          have : r ≠ rid := fun hEq => hnp (hEq ▸ hmem)
          simp [List.count_cons, this]
        · simp
      rw [hhead, htail]

/-- An id strictly above everything the counter can reach during the
trace is never resolved. -/
theorem resolved_below_counter (evs : List CEvent) :
    ∀ st rid, (∀ p ∈ st.pending, p ≤ st.id) → st.id + countCalls evs < rid →
      ((corrRun st evs).2.1).count rid = 0 := by
  induction evs with
  | nil => intro st rid _ _; simp [corrRun]
  | cons e es ih =>
    intro st rid hb hfresh
    cases e with
    | call =>
      rw [countCalls_cons_call] at hfresh
      simp only [corrRun, corrStep, request, List.nil_append]
      apply ih
      · intro p hp
        have hp2 : p ∈ (st.id + 1) :: st.pending := hp
        show p ≤ st.id + 1
        rcases List.mem_cons.mp hp2 with h1 | h2
        · omega
        · exact le_trans (hb p h2) (Nat.le_succ _)
      · show st.id + 1 + countCalls es < rid
        omega
    | respond r =>
      rw [countCalls_cons_respond] at hfresh
      simp only [corrRun, corrStep, List.count_append]
      have htail : ((corrRun (handleMsg st r).1 es).2.1).count rid = 0 := by
        apply ih
        · intro p hp
          rw [handleMsg_counter]
          unfold handleMsg at hp
          split at hp
          · exact hb p (List.mem_of_mem_erase hp)
          · exact hb p hp
        · rw [handleMsg_counter]; exact hfresh
      have hhead : ((handleMsg st r).2).count rid = 0 := by
        unfold handleMsg
        split
        · rename_i hmem
          have hr := hb r hmem
          have : r ≠ rid := by omega
          simp [List.count_cons, this]
        · simp
      rw [hhead, htail]

/-- A pending id whose response occurs in the trace is resolved exactly
once, regardless of where in the trace the response arrives. -/
theorem resolved_once (evs : List CEvent) :
    ∀ st rid, CorrInv st → rid ∈ st.pending → CEvent.respond rid ∈ evs →
      ((corrRun st evs).2.1).count rid = 1 := by
  induction evs with
  | nil => intro st rid _ _ hmem; simp at hmem
  | cons e es ih =>
    intro st rid hinv hpend hmem
    obtain ⟨hn, hb⟩ := hinv
    cases e with
    | call =>
      have hmem2 : CEvent.respond rid ∈ es := by
        rcases List.mem_cons.mp hmem with h1 | h2
        · exact absurd h1 (by simp)
        · exact h2
      simp only [corrRun, corrStep, request, List.nil_append]
      exact ih _ rid (corrInv_request st ⟨hn, hb⟩)
        (List.mem_cons_of_mem _ hpend) hmem2
    | respond r =>
      by_cases hr : r = rid
      · subst hr
        simp only [corrRun, corrStep, List.count_append]
        have hhead : ((handleMsg st r).2).count r = 1 := by
          unfold handleMsg
          rw [if_pos hpend]
          simp
        have htail : ((corrRun (handleMsg st r).1 es).2.1).count r = 0 := by
          apply resolved_never
          · intro p hp
            rw [handleMsg_counter]
            unfold handleMsg at hp
            rw [if_pos hpend] at hp
            exact hb p (List.mem_of_mem_erase hp)
          · unfold handleMsg
            rw [if_pos hpend]
            intro hm
            exact ((hn.mem_erase_iff).mp hm).1 rfl
          · rw [handleMsg_counter]
            exact hb r hpend
        rw [hhead, htail]
      · have hmem2 : CEvent.respond rid ∈ es := by
          rcases List.mem_cons.mp hmem with h1 | h2
          · cases h1; exact absurd rfl hr
          · exact h2
        simp only [corrRun, corrStep, List.count_append]
        have hhead : ((handleMsg st r).2).count rid = 0 := by
          unfold handleMsg
          split
          · simp [List.count_cons, hr]
          · simp
        have htail : ((corrRun (handleMsg st r).1 es).2.1).count rid = 1 := by
          apply ih _ rid (corrInv_handleMsg st r ⟨hn, hb⟩)
          · unfold handleMsg
            split
            · exact (hn.mem_erase_iff).mpr ⟨fun hEq => hr (hEq.symm), hpend⟩
            · exact hpend
          · exact hmem2
        rw [hhead, htail]

/-- Runs compose over trace concatenation. -/
theorem corrRun_append (xs ys : List CEvent) :
    ∀ st, corrRun st (xs ++ ys) =
      ((corrRun (corrRun st xs).1 ys).1,
       (corrRun st xs).2.1 ++ (corrRun (corrRun st xs).1 ys).2.1,
       (corrRun st xs).2.2 ++ (corrRun (corrRun st xs).1 ys).2.2) := by
  induction xs with
  | nil => intro st; simp [corrRun]
  | cons e es ih =>
    intro st
    simp only [List.cons_append, corrRun, List.append_eq]
    rw [ih]
    simp [List.append_assoc]

/- =====================================================================
   Lemmas about the framing layer
   ===================================================================== -/

theorem scanLines_cons (c : Char) (cs : List Char) :
    scanLines (c :: cs) = scanStep c (scanLines cs) := rfl

/-- Splitting a concatenation: the completed lines of `x ++ y` are the
completed lines of `x` followed by those of scanning `y` appended to the
residue of `x`; the final residue comes from the second scan. -/
theorem scanLines_append (x y : List Char) :
    scanLines (x ++ y) =
      ((scanLines x).1 ++ (scanLines ((scanLines x).2 ++ y)).1,
       (scanLines ((scanLines x).2 ++ y)).2) := by
  induction x with
  | nil => simp [scanLines]
  | cons c cs ih =>
    rcases hA : scanLines cs with ⟨L, B⟩
    rcases hB : scanLines (B ++ y) with ⟨L2, B2⟩
    have hcs : scanLines (cs ++ y) = (L ++ L2, B2) := by
      rw [ih, hA]
      dsimp only
      rw [hB]
    rw [List.cons_append, scanLines_cons, scanLines_cons, hcs, hA]
    by_cases hc : c = '\n'
    · subst hc
      simp [scanStep, hB]
    · cases L with
      | nil =>
        cases L2 with
        | nil =>
          simp [scanStep, hc, List.cons_append, scanLines_cons, hB]
        | cons l2 ls2 =>
          simp [scanStep, hc, List.cons_append, scanLines_cons, hB]
      | cons l ls =>
        simp [scanStep, hc, hB]

/-- Feeding `x ++ y` as one chunk equals feeding `x` and then `y`. -/
theorem feedChunk_comp (buf x y : List Char) :
    feedChunk buf (x ++ y) =
      ((feedChunk (feedChunk buf x).1 y).1,
       (feedChunk buf x).2 ++ (feedChunk (feedChunk buf x).1 y).2) := by
  unfold feedChunk
  dsimp only
  rw [← List.append_assoc, scanLines_append (buf ++ x) y]

/-- Feeding a nonempty list of chunks equals feeding their concatenation
as one chunk. -/
theorem feedChunks_join (cs : List (List Char)) :
    ∀ buf c, feedChunks buf (c :: cs) = feedChunk buf ((c :: cs).flatten) := by
  induction cs with
  | nil =>
    intro buf c
    simp [feedChunks, feedChunk]
  | cons d ds ih =>
    intro buf c
    show (let r1 := feedChunk buf c
          let r2 := feedChunks r1.1 (d :: ds)
          (r2.1, r1.2 ++ r2.2)) = _
    dsimp only
    rw [ih]
    have : (c :: d :: ds).flatten = c ++ (d :: ds).flatten := rfl
    rw [this, feedChunk_comp buf c ((d :: ds).flatten)]

/-- A stretch of characters with no newline is kept in the buffer and no
line is emitted. -/
theorem scanLines_no_newline (s : List Char) (h : ∀ ch ∈ s, ch ≠ '\n') :
    scanLines s = ([], s) := by
  induction s with
  | nil => rfl
  | cons c cs ih =>
    have hc : c ≠ '\n' := h c (List.mem_cons_self c cs)
    have hcs := ih (fun ch hm => h ch (List.mem_cons_of_mem c hm))
    rw [scanLines_cons, hcs]
    simp [scanStep, hc]

/-- Sanity: the newline split loses nothing — reinserting the newline
after each completed line and appending the residue reconstructs the
input exactly. -/
theorem scanLines_reconstruct (s : List Char) :
    ((scanLines s).1.map (fun l => l ++ ['\n'])).flatten ++ (scanLines s).2 = s := by
  induction s with
  | nil => rfl
  | cons c cs ih =>
    rw [scanLines_cons]
    rcases hA : scanLines cs with ⟨L, B⟩
    rw [hA] at ih
    by_cases hc : c = '\n'
    · subst hc
      simp [scanStep]
      simpa using ih
    · cases L with
      | nil =>
        simp [scanStep, hc]
        simpa using ih
      | cons l ls =>
        simp [scanStep, hc] at ih ⊢
        simpa using ih

/- =====================================================================
   Lemmas about the orchestrators and the line handler
   ===================================================================== -/

/-- The dispatch loop appends exactly one tool message and one dispatch
per function-typed call, in the order the calls were returned. -/
theorem dispatchLoop_spec (callTool : String → String → String)
    (calls : List ToolCall) :
    ∀ msgs disp, dispatchLoop callTool (msgs, disp) calls =
      (msgs ++ toolMsgsOf callTool calls, disp ++ dispatchedOf calls) := by
  induction calls with
  | nil => intro msgs disp; simp [dispatchLoop, toolMsgsOf, dispatchedOf]
  | cons tc rest ih =>
    intro msgs disp
    by_cases h : tc.ty = "function"
    · simp [dispatchLoop, h, ih, toolMsgsOf, dispatchedOf,
        List.filterMap_cons, List.append_assoc]
    · simp [dispatchLoop, h, ih, toolMsgsOf, dispatchedOf, List.filterMap_cons]

/-- The handler loop of `onData` never produces a log entry: the source
contains no logging statement on that path. -/
theorem handleLines_no_log (ls : List Line) :
    ∀ st out, handleLines st ls = Except.ok out → out.2.2 = [] := by
  induction ls with
  | nil =>
    intro st out h
    unfold handleLines at h
    cases h
    rfl
  | cons l rest ih =>
    intro st out h
    cases l with
    | blank => exact ih st out h
    | malformed => simp [handleLines] at h
    | msg rid =>
      have hEq : handleLines st (Line.msg rid :: rest) =
          (match handleLines (handleMsg st rid).1 rest with
           | Except.ok (st2, rs, logs) =>
             Except.ok (st2, (handleMsg st rid).2 ++ rs, logs)
           | Except.error e => Except.error e) := rfl
      rw [hEq] at h
      rcases heq : handleLines (handleMsg st rid).1 rest with e | ⟨st2, rs, logs⟩
      · rw [heq] at h
        simp at h
      · rw [heq] at h
        simp only [Except.ok.injEq] at h
        rw [← h]
        exact ih _ (st2, rs, logs) heq

/- =====================================================================
   Claim theorems
   ===================================================================== -/

/-- Claim C1: for every sequence of concurrently issued Correlator calls
(interleaved arbitrarily with response arrivals), each call is assigned a
unique integer id starting at 1 and strictly increasing (never reused
within a session); a pending entry is recorded before the request is
written; and each call whose response arrives — in whatever order — has
its waiting caller resolved exactly once, with the resolved entry removed
from the pending map. -/
theorem claim_C1_correlator (evs : List CEvent) :
    ((corrRun initCorr evs).2.2 = List.range' 1 (countCalls evs)) ∧
    ((corrRun initCorr evs).2.2).Pairwise (· < ·) ∧
    (∀ st : CorrState,
      (request st).2.2 = [WireAct.setPending (st.id + 1), WireAct.write (st.id + 1)]) ∧
    (∀ evs1 evs2, evs = evs1 ++ CEvent.call :: evs2 →
      CEvent.respond ((corrRun initCorr evs1).1.id + 1) ∈ evs2 →
      ((corrRun initCorr evs).2.1).count ((corrRun initCorr evs1).1.id + 1) = 1) ∧
    (∀ st rid, CorrInv st → rid ∈ st.pending →
      (handleMsg st rid).2 = [rid] ∧ rid ∉ (handleMsg st rid).1.pending) := by
  refine ⟨?_, ?_, ?_, ?_, ?_⟩
  · have h := corrRun_assigned evs initCorr
    simpa [initCorr] using h
  · have h := corrRun_assigned evs initCorr
    rw [h]
    exact List.pairwise_lt_range' _ _ 1 Nat.one_pos
  · intro st
    rfl
  · intro evs1 evs2 hsplit hresp
    subst hsplit
    rw [corrRun_append]
    set rid := (corrRun initCorr evs1).1.id + 1 with hrid
    have hmidinv : CorrInv (corrRun initCorr evs1).1 :=
      corrInv_corrRun evs1 initCorr corrInv_init
    have hcnt : (corrRun initCorr evs1).1.id = countCalls evs1 := by
      have := corrRun_counter evs1 initCorr
      simpa [initCorr] using this
    have hpart1 : ((corrRun initCorr evs1).2.1).count rid = 0 := by
      apply resolved_below_counter
      · intro p hp
        simp [initCorr] at hp
      · rw [hrid, corrRun_counter evs1 initCorr]
        simp [initCorr]
    have hpart2 :
        ((corrRun (corrRun initCorr evs1).1 (CEvent.call :: evs2)).2.1).count rid = 1 := by
      simp only [corrRun, corrStep, request, List.nil_append]
      apply resolved_once
      · exact corrInv_request _ hmidinv
      · show rid ∈ rid :: (corrRun initCorr evs1).1.pending
        exact List.mem_cons_self _ _
      · exact hresp
    simp only [List.count_append]
    rw [hpart1, hpart2]
  · intro st rid hinv hpend
    constructor
    · unfold handleMsg
      rw [if_pos hpend]
    · unfold handleMsg
      rw [if_pos hpend]
      intro hm
      exact ((hinv.1.mem_erase_iff).mp hm).1 rfl

/-- Witness for claim C1, on the concrete trace call, call, respond 2,
respond 1 (responses out of order): the second call's id 2 is resolved
exactly once. -/
theorem claim_C1_correlator_witness :
    ((corrRun initCorr
        [CEvent.call, CEvent.call, CEvent.respond 2, CEvent.respond 1]).2.1).count 2 = 1 :=
  (claim_C1_correlator
      [CEvent.call, CEvent.call, CEvent.respond 2, CEvent.respond 1]).2.2.2.1
    [CEvent.call] [CEvent.respond 2, CEvent.respond 1] rfl (by decide)

/-- Claim C2: for any payload split into one or more sequential chunks,
feeding the chunks one after the other produces exactly the same buffer
state, the same completed-line sequence and hence the same parsed message
sequence, in the same order, as feeding the concatenated payload in one
chunk; and a fragment with no newline is only buffered — no line is
completed, so nothing reaches the JSON decoder until the terminating
newline arrives. -/
theorem claim_C2_framing (c : List Char) (chunks : List (List Char))
    (parse : List Char → Option Nat) :
    (feedChunks [] (c :: chunks) = feedChunk [] ((c :: chunks).flatten)) ∧
    ((emitLines (feedChunks [] (c :: chunks)).2).map parse =
      (emitLines (feedChunk [] ((c :: chunks).flatten)).2).map parse) ∧
    (∀ buf frag, (∀ ch ∈ buf ++ frag, ch ≠ '\n') →
      feedChunk buf frag = (buf ++ frag, [])) := by
  refine ⟨feedChunks_join chunks [] c, ?_, ?_⟩
  · rw [feedChunks_join chunks [] c]
  · intro buf frag h
    unfold feedChunk
    rw [scanLines_no_newline (buf ++ frag) h]

/-- Witness for claim C2: the payload "a\nb\nc" split into three chunks
at arbitrary offsets equals the single-chunk feed, and the newline-free
fragment "ab" is buffered without emitting a line. -/
theorem claim_C2_framing_witness :
    (feedChunks [] [['a', '\n', 'b'], ['\n'], ['c']] =
      feedChunk [] ['a', '\n', 'b', '\n', 'c']) ∧
    feedChunk ['a'] ['b'] = (['a', 'b'], []) := by
  constructor
  · have h := (claim_C2_framing ['a', '\n', 'b'] [['\n'], ['c']] (fun _ => none)).1
    simpa using h
  · exact (claim_C2_framing [] [] (fun _ => none)).2.2 ['a'] ['b'] (by decide)

/-- Counterexample to claim C3: the Gemini Schema Adapter is a per-tool-
name lookup, not a structural translation.  A tool named get_time whose
input schema requires the argument zone is translated to a declaration
with no properties and no required list (the required-argument structure
is lost), while a get_forecast descriptor whose input schema requires
nothing still gets the hardcoded required list, showing the output is
keyed on the name and ignores the schema. -/
theorem claim_C3_counterexample :
    ((toGeminiTool ⟨"get_time", some "Get the current time",
        some (SchemaNode.obj [("zone", SchemaNode.str)] ["zone"])⟩).parameters.requiredOf
      = []) ∧
    ((toGeminiTool ⟨"get_time", some "Get the current time",
        some (SchemaNode.obj [("zone", SchemaNode.str)] ["zone"])⟩).parameters.propsOf
      = []) ∧
    ((toGeminiTool ⟨"get_forecast", none,
        some (SchemaNode.obj [] [])⟩).parameters.requiredOf = ["city"]) :=
  ⟨rfl, rfl, rfl⟩

/-- Claim C3 as amended: the adapter preserves the tool name in every
case, but the Gemini variant maps every tool other than get_forecast and
get_alerts to an empty object schema (dropping its input schema), while
the OpenAI variant forwards the descriptor's input schema verbatim. -/
theorem claim_C3_amended (tool : MCPTool) :
    ((toGeminiTool tool).name = tool.name) ∧
    (tool.name ≠ "get_forecast" → tool.name ≠ "get_alerts" →
      (toGeminiTool tool).parameters = GSchema.node GSchemaType.OBJECT [] []) ∧
    (toOpenAITool tool =
      ⟨"function", tool.name, tool.description, tool.inputSchema⟩) := by
  refine ⟨?_, ?_, rfl⟩
  · by_cases h1 : tool.name = "get_forecast"
    · simp [toGeminiTool, h1]
    · by_cases h2 : tool.name = "get_alerts"
      · simp [toGeminiTool, h1, h2]
      · simp [toGeminiTool, h1, h2]
  · intro h1 h2
    simp [toGeminiTool, h1, h2]

/-- Witness for the amended claim C3 at a concrete unknown tool. -/
theorem claim_C3_amended_witness :
    (toGeminiTool ⟨"get_time", none, none⟩).parameters =
      GSchema.node GSchemaType.OBJECT [] [] :=
  (claim_C3_amended ⟨"get_time", none, none⟩).2.1 (by decide) (by decide)

/-- Counterexample to claim C4: under a backend that always returns tool
calls, neither orchestrator loops back.  The OpenAI variant dispatches
only the first turn's call; the follow-up reply's tool call (toolB) is
never dispatched, and the query returns normally with the follow-up text
instead of any bounded-iteration error.  The Gemini variant likewise
dispatches exactly one call and returns the follow-up text. -/
theorem claim_C4_counterexample :
    ((processQueryOpenAI
        (fun _ => ⟨none, some [⟨"function", "id1", "toolA", "argsA"⟩]⟩)
        (fun _ => ⟨some "done", some [⟨"function", "id2", "toolB", "argsB"⟩]⟩)
        (fun n _ => n) "q").dispatched = [("toolA", "argsA")]) ∧
    ((processQueryOpenAI
        (fun _ => ⟨none, some [⟨"function", "id1", "toolA", "argsA"⟩]⟩)
        (fun _ => ⟨some "done", some [⟨"function", "id2", "toolB", "argsB"⟩]⟩)
        (fun n _ => n) "q").text = "done") ∧
    ((processQueryGemini
        (fun _ => ⟨[⟨some ⟨"toolA", []⟩⟩], "t"⟩)
        (fun _ _ _ => ⟨[⟨some ⟨"toolB", []⟩⟩], "follow"⟩)
        (fun n _ => n) "q") = ([("toolA", [])], "follow")) :=
  ⟨rfl, rfl, rfl⟩

/-- Claim C4 as amended: both orchestrators are single-shot.  The OpenAI
variant dispatches exactly the function-typed tool calls of the initial
model outcome — tool calls of the follow-up outcome are never dispatched
— and the Gemini variant dispatches at most one call per query; being
total functions, both terminate on every query, and no bounded-iteration
error exists anywhere in their result. -/
theorem claim_C4_amended (generate followUpGen : List ChatMsg → ModelMsg)
    (callTool : String → String → String)
    (gen2 : String → GenOutcome)
    (fu2 : String → String → String → GenOutcome)
    (ct2 : String → List (String × String) → String)
    (query : String) :
    ((processQueryOpenAI generate followUpGen callTool query).dispatched =
      dispatchedOf ((generate [⟨"user", query, none⟩]).tool_calls.getD [])) ∧
    ((processQueryGemini gen2 fu2 ct2 query).1.length ≤ 1) := by
  constructor
  · unfold processQueryOpenAI
    dsimp only
    rcases h : (generate [⟨"user", query, none⟩]).tool_calls with _ | calls
    · simp [dispatchedOf]
    · simp [dispatchLoop_spec, dispatchedOf]
  · unfold processQueryGemini
    dsimp only
    rcases h : ((gen2 query).parts.find? (fun p => p.functionCall.isSome)).bind
        (fun p => p.functionCall) with _ | call
    · rw [h]
      exact Nat.zero_le 1
    · rw [h]
      exact Nat.le_refl 1

/-- Counterexample to claim C5: in the Gemini variant a model turn
returning two tool-call intents causes exactly one dispatch — only the
first functionCall part found is invoked, not one call per intent. -/
theorem claim_C5_counterexample :
    ((processQueryGemini
        (fun _ => ⟨[⟨some ⟨"get_forecast", [("city", "Paris")]⟩⟩,
                    ⟨some ⟨"get_alerts", [("region", "Idf")]⟩⟩], "t"⟩)
        (fun _ _ _ => ⟨[], "f"⟩)
        (fun n _ => n) "weather").1 =
      [("get_forecast", [("city", "Paris")])]) ∧
    ((processQueryGemini
        (fun _ => ⟨[⟨some ⟨"get_forecast", [("city", "Paris")]⟩⟩,
                    ⟨some ⟨"get_alerts", [("region", "Idf")]⟩⟩], "t"⟩)
        (fun _ _ _ => ⟨[], "f"⟩)
        (fun n _ => n) "weather").1.length ≠ 2) :=
  ⟨rfl, by decide⟩

/-- Claim C5 as amended: in the OpenAI variant a turn with two function
intents causes exactly two dispatches, in intent order, with both results
attached to their originating intents via tool_call_id and present in the
history before the follow-up model call; in the Gemini variant only the
first of the two intents is dispatched. -/
theorem claim_C5_amended (generate followUpGen : List ChatMsg → ModelMsg)
    (callTool : String → String → String) (query : String) (c1 c2 : ToolCall)
    (h : (generate [⟨"user", query, none⟩]).tool_calls = some [c1, c2])
    (h1 : c1.ty = "function") (h2 : c2.ty = "function")
    (gen2 : String → GenOutcome) (fu2 : String → String → String → GenOutcome)
    (ct2 : String → List (String × String) → String)
    (f1 f2 : FCall) (ps : List GPart)
    (hg : (gen2 query).parts = ⟨some f1⟩ :: ⟨some f2⟩ :: ps) :
    ((processQueryOpenAI generate followUpGen callTool query).dispatched =
      [(c1.name, c1.args), (c2.name, c2.args)]) ∧
    ((processQueryOpenAI generate followUpGen callTool query).followUpInput =
      some [⟨"user", query, none⟩,
            ⟨"tool", callTool c1.name c1.args, some c1.callId⟩,
            ⟨"tool", callTool c2.name c2.args, some c2.callId⟩]) ∧
    ((processQueryGemini gen2 fu2 ct2 query).1 = [(f1.name, f1.args)]) := by
  refine ⟨?_, ?_, ?_⟩
  · unfold processQueryOpenAI
    dsimp only
    rw [h]
    simp [dispatchLoop_spec, dispatchedOf, List.filterMap_cons, h1, h2]
  · unfold processQueryOpenAI
    dsimp only
    rw [h]
    simp [dispatchLoop_spec, toolMsgsOf, List.filterMap_cons, h1, h2]
  · unfold processQueryGemini
    dsimp only
    rw [hg]
    rfl

/-- Witness for the amended claim C5 on a concrete two-intent turn. -/
theorem claim_C5_amended_witness :
    (processQueryOpenAI
        (fun _ => ⟨none, some [⟨"function", "a1", "get_forecast", "argsF"⟩,
                               ⟨"function", "a2", "get_alerts", "argsA"⟩]⟩)
        (fun _ => ⟨some "ok", none⟩)
        (fun n _ => n) "two").dispatched =
      [("get_forecast", "argsF"), ("get_alerts", "argsA")] :=
  (claim_C5_amended
    (fun _ => ⟨none, some [⟨"function", "a1", "get_forecast", "argsF"⟩,
                           ⟨"function", "a2", "get_alerts", "argsA"⟩]⟩)
    (fun _ => ⟨some "ok", none⟩) (fun n _ => n) "two"
    ⟨"function", "a1", "get_forecast", "argsF"⟩
    ⟨"function", "a2", "get_alerts", "argsA"⟩ rfl rfl rfl
    (fun _ => ⟨[⟨some ⟨"f1", []⟩⟩, ⟨some ⟨"f2", []⟩⟩], "t"⟩)
    (fun _ _ _ => ⟨[], "f"⟩) (fun n _ => n)
    ⟨"f1", []⟩ ⟨"f2", []⟩ [] rfl).1

/-- Claim C6 evaluated at the failing input: a line that fails to
JSON-decode makes the handler throw (the process crashes), it is not
logged-and-skipped, and a valid response line arriving after it in the
same chunk is never processed — even though id 1 is pending.  When the
malformed line comes second, the resolutions of the earlier valid line
are also lost to the escaping exception. -/
theorem claim_C6_crash :
    (handleLines ⟨2, [1, 2]⟩ [Line.malformed, Line.msg 1] =
      Except.error "SyntaxError") ∧
    (handleLines ⟨2, [1, 2]⟩ [Line.msg 1, Line.malformed] =
      Except.error "SyntaxError") ∧
    (∀ st rest, handleLines st (Line.malformed :: rest) =
      Except.error "SyntaxError") :=
  ⟨rfl, rfl, fun _ _ => rfl⟩

/-- Claim C7 evaluated at the failing input: a backend error in one query
escapes the chat loop — the later queries ("hello") are never processed
and the session ends — in the OpenAI variant through the catch block of
main with exit code 1, in the Gemini variant as an unhandled rejection.
The claim that the session continues with the next line is false. -/
theorem claim_C7_session_dies :
    (chatLoopOpenAI
        (fun q => if q = "boom" then Except.error "BackendError" else Except.ok q)
        ["boom", "hello", "quit"] = ([], some "BackendError")) ∧
    (mainOpenAI ["node", "build/index.js", "server.js"] (Except.ok ())
        (fun q => if q = "boom" then Except.error "BackendError" else Except.ok q)
        ["boom", "hello", "quit"] = (1, [])) ∧
    (chatLoopGemini
        (fun q => if q = "boom" then Except.error "NetworkError" else Except.ok ())
        ["boom", "hello"] = (1, some "NetworkError")) := by
  refine ⟨?_, ?_, ?_⟩ <;> rfl

/-- Counterexample to claim C8: a response whose id has no pending entry
is dropped without any diagnostic — the handler emits no log entry at
all, so the "logged for diagnosis" part of the claim is false (the rest
of its behavior holds: nothing resolved, state unchanged, no abort). -/
theorem claim_C8_counterexample :
    handleLines ⟨3, [1]⟩ [Line.msg 2] = Except.ok (⟨3, [1]⟩, [], []) := rfl

/-- Claim C8 as amended: a response whose id has no pending entry is
discarded silently: no caller is resolved, the pending map is unchanged,
the session does not abort and processing continues with the next lines
exactly as if the response had not arrived — and no log entry is ever
produced on this path. -/
theorem claim_C8_amended (st : CorrState) (rid : Nat) (rest : List Line)
    (h : rid ∉ st.pending) :
    (handleMsg st rid = (st, [])) ∧
    (handleLines st (Line.msg rid :: rest) = handleLines st rest) ∧
    (∀ out, handleLines st (Line.msg rid :: rest) = Except.ok out →
      out.2.2 = []) := by
  have hmsg : handleMsg st rid = (st, []) := by
    unfold handleMsg
    rw [if_neg h]
  refine ⟨hmsg, ?_, ?_⟩
  · have hEq : handleLines st (Line.msg rid :: rest) =
        (match handleLines (handleMsg st rid).1 rest with
         | Except.ok (st2, rs, logs) =>
           Except.ok (st2, (handleMsg st rid).2 ++ rs, logs)
         | Except.error e => Except.error e) := rfl
    rw [hEq, hmsg]
    rcases h2 : handleLines st rest with e | ⟨st2, rs, logs⟩
    · rfl
    · rfl
  · intro out hout
    exact handleLines_no_log (Line.msg rid :: rest) st out hout

/-- Witness for the amended claim C8 at a concrete unknown-id response:
the line for id 2 (not pending) is a no-op before the line for pending
id 1. -/
theorem claim_C8_amended_witness :
    handleLines ⟨3, [1]⟩ [Line.msg 2, Line.msg 1] = handleLines ⟨3, [1]⟩ [Line.msg 1] :=
  (claim_C8_amended ⟨3, [1]⟩ 2 [Line.msg 1] (by decide)).2.1

/-- Counterexample to claim C9: with the path argument absent, the
OpenAI variant prints the usage line and returns from main, so the
process ends with exit code 0, not 1 — though indeed no query is
processed. -/
theorem claim_C9_counterexample :
    mainOpenAI ["node", "build/index.js"] (Except.ok ())
      (fun q => Except.ok q) ["hi", "quit"] = (0, []) := rfl

/-- Claim C9 as amended: when the tool-server path argument is absent
both variants print a usage message and stop before processing any
query, but only the Gemini variant exits with code 1; the OpenAI variant
returns from main and the process exits with code 0. -/
theorem claim_C9_amended (argv : List String) (connect : Except String Unit)
    (proc : String → Except String String) (proc2 : String → Except String Unit)
    (inputs : List String) (h : argv.length < 3) :
    (mainOpenAI argv connect proc inputs = (0, [])) ∧
    (mainGemini argv connect proc2 inputs = (1, none)) := by
  constructor
  · unfold mainOpenAI
    rw [if_pos h]
  · unfold mainGemini
    have h2 : argv.get? 2 = none := by
      rw [List.get?_eq_none]
      omega
    rw [h2]

/-- Witness for the amended claim C9 at a concrete two-entry argv. -/
theorem claim_C9_amended_witness :
    mainGemini ["node", "index.js"] (Except.ok ()) (fun _ => Except.ok ())
      ["hi"] = (1, none) :=
  (claim_C9_amended ["node", "index.js"] (Except.ok ()) (fun q => Except.ok q)
    (fun _ => Except.ok ()) ["hi"] (by decide)).2

/-- Claim C10: the quit command is matched case-insensitively — in the
OpenAI variant any input line whose lowercased form equals "quit", and in
the Gemini variant any line whose trimmed lowercased form equals "quit",
ends the loop gracefully with no query processed from that point on; the
trigger is not limited to the literal lowercase string "quit", as the
distinct line "QUIT" (and, for Gemini, " Quit ") also quits. -/
theorem claim_C10_quit (s t : String) (rest rest2 : List String)
    (process : String → Except String String)
    (process2 : String → Except String Unit)
    (h1 : lowerStr s = "quit") (h2 : lowerStr (trimStr t) = "quit") :
    (chatLoopOpenAI process (s :: rest) = ([], none)) ∧
    (chatLoopGemini process2 (t :: rest2) = (0, none)) ∧
    ("QUIT" ≠ "quit" ∧ lowerStr "QUIT" = "quit" ∧
      lowerStr (trimStr " Quit ") = "quit") := by
  refine ⟨?_, ?_, by decide, by decide, by decide⟩
  · unfold chatLoopOpenAI
    rw [if_pos h1]
  · unfold chatLoopGemini
    rw [if_pos h2]

/-- Witness for claim C10: the non-lowercase line "QUIT" ends the OpenAI
loop before the remaining input is processed. -/
theorem claim_C10_quit_witness :
    chatLoopOpenAI (fun q => Except.ok q) ["QUIT", "after"] = ([], none) :=
  (claim_C10_quit "QUIT" " Quit " ["after"] [] (fun q => Except.ok q)
    (fun _ => Except.ok ()) (by decide) (by decide)).1
